import Mathlib

/- Shallow embedding of SitemapSurveyorBot's sitemap_checker.py.

   The five functions of the module — load_known_urls, save_known_urls,
   fetch_sitemap, parse_sitemap and check_sitemaps — are translated into
   pure Lean functions.  External libraries (requests, lxml, urllib.parse,
   and the complex re patterns) are modelled as explicit oracle parameters
   gathered in an environment record; the simple loc-extraction regex used
   by the parse fallback is implemented concretely.  Unbounded recursion in
   fetch_sitemap / parse_sitemap (sitemap-index recursion, robots and
   HTML-link redirections) is made total with an explicit fuel parameter;
   the source has no such bound. -/

/- The empty error string marking a successful SitemapCheckResult. -/
def noErr : String := ""

/- ------------------------------------------------------------------ -/
/- Known-URL store: file-level model (load_known_urls / save_known_urls) -/
/- ------------------------------------------------------------------ -/

/- JSON values as produced by json.load on the store file.  Floats are not
   needed for any behaviour the store exercises. -/
inductive JVal where
  | str : String → JVal
  | num : Int → JVal
  | bool : Bool → JVal
  | null : JVal
  | arr : List JVal → JVal
  | obj : List (String × JVal) → JVal

/- Content of a file on disk: absent, present but not valid JSON (the raw
   text kept for backup purposes), or present with a parsed JSON value.
   Byte-level whitespace of a valid file is below this abstraction: a valid
   file is identified with its JSON value. -/
inductive FileContent where
  | missing : FileContent
  | malformed : String → FileContent
  | valid : JVal → FileContent

/- The two paths load_known_urls / save_known_urls touch:
   known_urls.json (main) and known_urls.json.bak (bak). -/
structure StoreFS where
  main : FileContent
  bak : FileContent

/- Translation of sitemap_checker.load_known_urls.  backupOk models whether
   the best-effort copy of a corrupt file to the .bak path succeeds (the
   source logs and swallows a backup failure).  The function is total: the
   source wraps everything in try/except and returns a dict in all cases. -/
def load_known_urls (backupOk : Bool) (fs : StoreFS) : JVal × StoreFS :=
  match fs.main with
  | FileContent.missing => (JVal.obj [], fs)
  | FileContent.valid v => (v, fs)
  | FileContent.malformed raw =>
      (JVal.obj [],
       if backupOk then { main := fs.main, bak := FileContent.malformed raw } else fs)

def JVal.isObj : JVal → Bool
  | .obj _ => true
  | _ => false

/- Translation of sitemap_checker.save_known_urls.  A non-dict argument is
   replaced by the empty dict before serialization (the isinstance guard);
   every JVal is json-serializable so the json.dumps guard never fires.
   writeOk models the temp-file write plus atomic rename: on failure the
   source logs and leaves the previous on-disk state untouched. -/
def save_known_urls (v : JVal) (writeOk : Bool) (fs : StoreFS) : StoreFS :=
  let v2 := if v.isObj then v else JVal.obj []
  if writeOk then { main := FileContent.valid v2, bak := fs.bak } else fs

/- A JSON value that is an array of strings. -/
def isStrArr : JVal → Bool
  | .arr xs => xs.all (fun x => match x with | .str _ => true | _ => false)
  | _ => false

/- A valid on-disk mapping: JSON object whose values are arrays of strings
   (sitemap identifier → list of known URLs). -/
def isUrlMapping : JVal → Bool
  | .obj fields => fields.all (fun p => isStrArr p.2)
  | _ => false

/- Concrete store states used by the witnesses below. -/
def exRaw : String := "not json at all"

def exUrlA : String := "https://a.test/page-a"

def exKeyA : String := "https://a.test/sitemap.xml"

def exMapping : JVal := JVal.obj [(exKeyA, JVal.arr [JVal.str exUrlA])]

/- ------------------------------------------------------------------ -/
/- check_sitemaps: the per-cycle orchestrator                          -/
/- ------------------------------------------------------------------ -/

/- The in-memory known-URL mapping as check_sitemaps manipulates it: a
   Python dict in insertion order, whose values (lists of URLs converted to
   and from sets by the source) are modelled directly as finite sets. -/
abbrev KnownMap := List (String × Finset String)

/- Python `key in dict`. -/
def kmHasKey : KnownMap → String → Bool
  | [], _ => false
  | p :: m, k => if p.1 = k then true else kmHasKey m k

/- Python `dict[key]` (total here; check_sitemaps only reads keys it has
   just ensured are present). -/
def kmGet : KnownMap → String → Finset String
  | [], _ => ∅
  | p :: m, k => if p.1 = k then p.2 else kmGet m k

/- Python `dict[key] = value`: replace in place when the key exists,
   append otherwise. -/
def kmSet (m : KnownMap) (k : String) (v : Finset String) : KnownMap :=
  if kmHasKey m k then m.map (fun p => if p.1 = k then (k, v) else p)
  else m ++ [(k, v)]

/- Translation of the SitemapCheckResult dataclass.  new_urls is a list of
   a Python set in the source (order carries no information, per the spec);
   it is modelled as the set itself. -/
structure SitemapCheckResult where
  sitemap_url : String
  total_urls : Nat
  new_urls : Finset String
  error : String

/- One iteration of the check_sitemaps loop (lines 312-362).  fp is the
   combined `fetch_sitemap then parse_sitemap` action of the inner try
   block: it either yields the parsed URL set or fails with the message of
   the raised exception.  State: (known-URL mapping, accumulated results). -/
def checkStep (fp : String → Except String (Finset String))
    (st : KnownMap × List SitemapCheckResult) (url : String) :
    KnownMap × List SitemapCheckResult :=
  match fp url with
  | .error e => (st.1, st.2 ++ [⟨url, 0, ∅, e⟩])
  | .ok current =>
    let known1 := if kmHasKey st.1 url then st.1 else st.1 ++ [(url, ∅)]
    let newU := current \ kmGet known1 url
    if newU = ∅ then (known1, st.2 ++ [⟨url, current.card, ∅, noErr⟩])
    else (kmSet known1 url current, st.2 ++ [⟨url, current.card, newU, noErr⟩])

/- The final mapping after folding the loop over the URL list. -/
def foldKnown (fp : String → Except String (Finset String))
    (k : KnownMap) (us : List String) : KnownMap :=
  (us.foldl (checkStep fp) (k, [])).1

/- The result list after folding the loop over the URL list. -/
def foldRes (fp : String → Except String (Finset String))
    (k : KnownMap) (us : List String) : List SitemapCheckResult :=
  (us.foldl (checkStep fp) (k, [])).2

/- Translation of sitemap_checker.check_sitemaps (lines 298-371), given the
   initially loaded mapping.  Returns the result list, the final in-memory
   mapping, and whether save_known_urls was invoked (the source guards the
   single save call with `if known_urls:`, Python truthiness = non-empty). -/
def check_sitemaps (fp : String → Except String (Finset String))
    (known0 : KnownMap) (urls : List String) :
    List SitemapCheckResult × KnownMap × Bool :=
  let st := urls.foldl (checkStep fp) (known0, [])
  (st.2, st.1, !st.1.isEmpty)

/- check_sitemaps together with its persistence step: disk0 is the on-disk
   mapping before the cycle (none = no file), saveOk whether the physical
   write succeeds (save_known_urls swallows its own failures). -/
def runCheckCycle (fp : String → Except String (Finset String))
    (known0 : KnownMap) (urls : List String) (saveOk : Bool)
    (disk0 : Option KnownMap) : List SitemapCheckResult × Option KnownMap :=
  let out := check_sitemaps fp known0 urls
  (out.1, if out.2.1.isEmpty then disk0 else if saveOk then some out.2.1 else disk0)

/- Known/result of a single loop iteration, stated without the result
   accumulator (used to reason about the fold). -/
def stepKnown (fp : String → Except String (Finset String))
    (k : KnownMap) (w : String) : KnownMap :=
  match fp w with
  | .error _ => k
  | .ok current =>
    let known1 := if kmHasKey k w then k else k ++ [(w, ∅)]
    if current \ kmGet known1 w = ∅ then known1 else kmSet known1 w current

def stepRes (fp : String → Except String (Finset String))
    (k : KnownMap) (w : String) : SitemapCheckResult :=
  match fp w with
  | .error e => ⟨w, 0, ∅, e⟩
  | .ok current =>
    let known1 := if kmHasKey k w then k else k ++ [(w, ∅)]
    ⟨w, current.card, current \ kmGet known1 w, noErr⟩

/- ------------------------------------------------------------------ -/
/- String helpers (kernel-computable stand-ins for Python str methods) -/
/- ------------------------------------------------------------------ -/

/- Does cs start with the pattern ps? (Python str.startswith) -/
def listHasPre : List Char → List Char → Bool
  | [], _ => true
  | _ :: _, [] => false
  | p :: ps, c :: cs => p == c && listHasPre ps cs

/- Does the pattern occur somewhere in the list? (Python `in` on str) -/
def listHasSub (pat : List Char) : List Char → Bool
  | [] => listHasPre pat []
  | c :: cs => listHasPre pat (c :: cs) || listHasSub pat cs

def strContains (s pat : String) : Bool := listHasSub pat.toList s.toList

def strStarts (s pat : String) : Bool := listHasPre pat.toList s.toList

def strEnds (s pat : String) : Bool := listHasPre pat.toList.reverse s.toList.reverse

/- Python str.lower (the source only ever lowercases ASCII hosts, URLs and
   markup markers). -/
def lowerStr (s : String) : String := String.mk (s.toList.map Char.toLower)

/- Python slicing s[:n]. -/
def strTake (s : String) (n : Nat) : String := String.mk (s.toList.take n)

/- ------------------------------------------------------------------ -/
/- String constants of fetch_sitemap / parse_sitemap                   -/
/- ------------------------------------------------------------------ -/

def httpTok : String := "http://"

def httpsTok : String := "https://"

def slashTok : String := "/"

def schemeSepTok : String := "://"

def robotsTok : String := "robots.txt"

def sitemapTok : String := "sitemap"

def xmlExtTok : String := ".xml"

def sitemapXmlTok : String := "sitemap.xml"

def slashSitemapXmlTok : String := "/sitemap.xml"

def robotsPathTok : String := "/robots.txt"

def xmlDeclTok : String := "<?xml"

def urlsetTok : String := "<urlset"

def sitemapindexTok : String := "<sitemapindex"

def htmlTok : String := "<html"

def locOpenTok : String := "<loc>"

def locCloseTok : String := "</loc>"

def sitemapindexSuffix : String := "sitemapindex"

def fallbackBase : String := "https://example.com"

def githubHost : String := "github.com"

def twitterHost : String := "twitter.com"

def xHost : String := "x.com"

def googleHost : String := "google.com"

def wwwGoogleHost : String := "www.google.com"

def githubHome : String := "https://github.com/"

def googleSitemap : String := "https://www.google.com/sitemap.xml"

def noPublicMsg : String := "This site doesn't provide public sitemaps"

def noSitemapsMsg : String := "No sitemaps found in robots.txt"

/- Artifact of the fuel encoding of the source's unbounded recursion; the
   theorems always supply enough fuel for it never to be reached. -/
def fuelMsg : String := "recursion limit exceeded"

/- ------------------------------------------------------------------ -/
/- fetch_sitemap and parse_sitemap                                     -/
/- ------------------------------------------------------------------ -/

/- The root of an XML document as lxml exposes it to parse_sitemap:
   root.tag, plus the text of the two xpath queries the source runs
   (//sm:sitemap/sm:loc/text() and //sm:url/sm:loc/text()). -/
structure XmlRoot where
  tag : String
  sitemapLocs : List String
  urlLocs : List String

/- Oracles for the external libraries the two functions call.
   httpGet: requests.get + raise_for_status + .text (error = the message of
   the raised exception, covering transport failures and non-2xx statuses).
   httpGetRaw: requests.get + .text without raise_for_status (used by the
   direct robots.txt probe on lines 201 and 212; an HTTP error status still
   yields a body there).
   netloc / scheme: urllib.parse.urlparse components.
   robotsRefs: re.findall of the case-insensitive `sitemap: <url>` pattern.
   htmlSitemapLinks: re.findall of the href-to-*.xml sitemap-link pattern.
   htmlHrefs: re.findall of the page-like href pattern of parse_sitemap.
   urljoin: urllib.parse.urljoin.
   xmlParse: lxml etree.fromstring plus the two xpath queries (error = the
   message of the parse exception). -/
structure Env where
  httpGet : String → Except String String
  httpGetRaw : String → Except String String
  netloc : String → String
  scheme : String → String
  robotsRefs : String → List String
  htmlSitemapLinks : String → List String
  htmlHrefs : String → List String
  urljoin : String → String → String
  xmlParse : String → Except String XmlRoot

/- The domain special-casing of fetch_sitemap (lines 93-118): github gets
   rewritten to the home page with the special flag set, twitter/x raise,
   google is rewritten to its sitemap URL.  Except.error models the raise. -/
def specialCase (env : Env) (url0 : String) : Except String (Bool × String) :=
  let domain := lowerStr (env.netloc url0)
  if domain = githubHost ∧ strContains (lowerStr url0) sitemapTok = false then
    Except.ok (true, githubHome)
  else if domain = twitterHost ∨ domain = xHost then
    Except.error noPublicMsg
  else if domain = googleHost ∨ domain = wwwGoogleHost then
    Except.ok (false, googleSitemap)
  else
    Except.ok (false, url0)

/- Path normalization (lines 120-128): append sitemap.xml when the URL does
   not look like a sitemap reference and no special case applied. -/
def normalizeUrl (special : Bool) (url : String) : String :=
  if strEnds url xmlExtTok = false ∧ strContains (lowerStr url) sitemapTok = false
      ∧ strContains (lowerStr url) robotsTok = false ∧ special = false then
    if strEnds url slashTok = true then url ++ sitemapXmlTok
    else url ++ slashSitemapXmlTok
  else url

/- Translation of sitemap_checker.fetch_sitemap (lines 79-224).  The fuel
   argument bounds the recursion (robots redirect, HTML sitemap-link
   redirect) that the source leaves unbounded. -/
def fetch_sitemap (env : Env) : Nat → String → Bool → Except String String
  | 0, _, _ => Except.error fuelMsg
  | Nat.succ fuel, url0, fromRobots =>
    match specialCase env url0 with
    | Except.error e => Except.error e
    | Except.ok (special, url1) =>
      let url := normalizeUrl special url1
      match env.httpGet url with
      | Except.error e => Except.error e
      | Except.ok content =>
        if strContains (lowerStr url) robotsTok = true then
          match env.robotsRefs content with
          | [] => Except.error noSitemapsMsg
          | ref :: _ =>
            if fromRobots = true then Except.ok content
            else
              match fetch_sitemap env fuel ref true with
              | Except.ok c => Except.ok c
              | Except.error _ => Except.ok content
        else if strContains content xmlDeclTok = false
            ∧ strContains content urlsetTok = false
            ∧ strContains content sitemapindexTok = false then
          if strContains (lowerStr content) htmlTok = true then
            match env.htmlSitemapLinks content with
            | link :: _ =>
              fetch_sitemap env fuel
                (if strStarts link slashTok = true
                 then env.scheme url0 ++ schemeSepTok ++ env.netloc url0 ++ link
                 else link) false
            | [] =>
              if strEnds url robotsTok = false ∧ fromRobots = false then
                match env.httpGetRaw
                    (env.scheme url0 ++ schemeSepTok ++ env.netloc url0 ++ robotsPathTok) with
                | Except.error _ => Except.ok content
                | Except.ok rc =>
                  match env.robotsRefs rc with
                  | [] => Except.ok content
                  | ref2 :: _ =>
                    match env.httpGetRaw ref2 with
                    | Except.ok t => Except.ok t
                    | Except.error _ => Except.ok content
              else Except.ok content
          else Except.ok content
        else Except.ok content

/- Strip a literal pattern from the head of a character list. -/
def stripLit : List Char → List Char → Option (List Char)
  | [], cs => some cs
  | _ :: _, [] => none
  | p :: ps, c :: cs => if p = c then stripLit ps cs else none

/- Try to match the regex `<loc>(https?://[^<]+)</loc>` at the head of the
   list; on success return the captured URL and the remainder after the
   closing tag. -/
def locMatchAt (cs : List Char) : Option (String × List Char) :=
  match stripLit locOpenTok.toList cs with
  | none => none
  | some a =>
    match (match stripLit httpsTok.toList a with
           | some b => some (httpsTok, b)
           | none =>
             match stripLit httpTok.toList a with
             | some b => some (httpTok, b)
             | none => none) with
    | none => none
    | some (sch, b) =>
      let body := b.takeWhile (fun c => c != '<')
      if body.isEmpty = true then none
      else
        match stripLit locCloseTok.toList (b.drop body.length) with
        | none => none
        | some rest => some (sch ++ String.mk body, rest)

/- Left-to-right non-overlapping scan, advancing one character on failure
   and past the match on success, exactly like re.findall.  The fuel is the
   list length, which the scan never exhausts since every step consumes at
   least one character. -/
def locFindallAux : Nat → List Char → List String
  | 0, _ => []
  | Nat.succ _, [] => []
  | Nat.succ fuel, c :: cs =>
    match locMatchAt (c :: cs) with
    | some (url, rest) => url :: locFindallAux fuel rest
    | none => locFindallAux fuel cs

/- Concrete implementation of re.findall of `<loc>(https?://[^<]+)</loc>`
   (line 288), the fallback extraction of parse_sitemap. -/
def locFindall (s : String) : List String := locFindallAux s.toList.length s.toList

/- The guard of the HTML short-circuit of parse_sitemap (line 231):
   '<html' in content.lower() and '<?xml' not in content and '<urlset' not
   in content.  Note the source does NOT test for '<sitemapindex' here. -/
def htmlGate (content : String) : Bool :=
  strContains (lowerStr content) htmlTok
    && !(strContains content xmlDeclTok) && !(strContains content urlsetTok)

/- Best-guess base origin for relative hrefs (lines 240-246): urlparse on
   the first 1000 characters of the content, falling back to a hardcoded
   origin when that yields no netloc. -/
def baseOf (env : Env) (content : String) : String :=
  if env.netloc (strTake content 1000) = noErr then fallbackBase
  else env.scheme (strTake content 1000) ++ schemeSepTok ++ env.netloc (strTake content 1000)

/- Absolutization loop of the HTML branch (lines 248-254): root-relative
   candidates are urljoined to the base, absolute http(s) ones kept, all
   others dropped. -/
def resolveHtml (env : Env) (content : String) (hs : List String) : Finset String :=
  hs.foldl (fun acc u =>
    if strStarts u slashTok = true then insert (env.urljoin (baseOf env content) u) acc
    else if strStarts u httpTok = true ∨ strStarts u httpsTok = true then insert u acc
    else acc) ∅

/- Translation of sitemap_checker.parse_sitemap (lines 226-296).  The HTML
   branch returns early only when the href pattern finds at least one
   candidate, exactly as in the source, where an empty findall falls
   through to XML parsing.  Sub-sitemap recursion of a sitemap index calls
   fetch_sitemap and parse_sitemap per entry, swallowing per-entry
   failures. -/
def parse_sitemap (env : Env) : Nat → String → Except String (Finset String)
  | 0, _ => Except.error fuelMsg
  | Nat.succ fuel, content =>
    let htmlUrls := if htmlGate content = true then env.htmlHrefs content else []
    if htmlUrls.isEmpty = true then
      match env.xmlParse content with
      | Except.ok root =>
        if strEnds root.tag sitemapindexSuffix = true then
          Except.ok (root.sitemapLocs.foldl (fun acc sm =>
            match fetch_sitemap env fuel sm false with
            | Except.error _ => acc
            | Except.ok sub =>
              match parse_sitemap env fuel sub with
              | Except.error _ => acc
              | Except.ok us => acc ∪ us) ∅)
        else Except.ok (root.urlLocs.foldl (fun acc u => insert u acc) ∅)
      | Except.error e =>
        match locFindall content with
        | [] => Except.error e
        | l :: ls => Except.ok ((l :: ls).foldl (fun acc u => insert u acc) ∅)
    else Except.ok (resolveHtml env content htmlUrls)

/- The inner try block of the check_sitemaps loop: fetch then parse, either
   exception propagating as the error message. -/
def fetchParse (env : Env) (fuel : Nat) (url : String) : Except String (Finset String) :=
  match fetch_sitemap env fuel url false with
  | Except.error e => Except.error e
  | Except.ok c => parse_sitemap env fuel c

/- check_sitemaps instantiated with the real fetch and parse functions. -/
def check_sitemaps_full (env : Env) (fuel : Nat) (known0 : KnownMap)
    (urls : List String) : List SitemapCheckResult × KnownMap × Bool :=
  check_sitemaps (fetchParse env fuel) known0 urls

/- Concrete fetch-and-parse oracles and inputs for the check_sitemaps
   witnesses and counterexample. -/
def wUrl : String := "https://b.test/sitemap.xml"

def wOther : String := "https://c.test/sitemap.xml"

def wA : String := "https://b.test/page-1"

def wB : String := "https://b.test/page-2"

def wSet : Finset String := {wA, wB}

def wMsg : String := "connection timed out"

def fpOkW : String → Except String (Finset String) :=
  fun url => if url = wUrl then Except.ok wSet else Except.error wMsg

def fpIsoW : String → Except String (Finset String) :=
  fun url => if url = wUrl then Except.error wMsg else Except.ok wSet

def cxMsg : String := "boom"

def cxFp : String → Except String (Finset String) :=
  fun _ => Except.error cxMsg

def cxUrl : String := "https://a.test/sitemap.xml"

/- Concrete environments and inputs for the fetch/parse witnesses. -/
def errNoRoute : String := "connection refused"

def errSyntax : String := "syntax error"

def hostATest : String := "a.test"

def httpsScheme : String := "https"

def tagIndex : String := "sitemapindex"

def tagUrlset : String := "urlset"

def subUrl1 : String := "https://a.test/s1.xml"

def subUrl2 : String := "https://a.test/s2.xml"

def badUrl : String := "https://a.test/bad.xml"

def contentOne : String := "ONE"

def contentTwo : String := "TWO"

def idxContent : String := "IDX"

def idxBadContent : String := "IDXBAD"

def page1 : String := "https://a.test/p1"

def page2 : String := "https://a.test/p2"

/- Environment for the sitemap-index witness: two sub-sitemaps with one
   page each, plus an index variant whose first sub-sitemap URL is
   unreachable. -/
def wEnvA : Env := {
  httpGet := fun u =>
    if u = subUrl1 then Except.ok contentOne
    else if u = subUrl2 then Except.ok contentTwo
    else Except.error errNoRoute,
  httpGetRaw := fun _ => Except.error errNoRoute,
  netloc := fun _ => hostATest,
  scheme := fun _ => httpsScheme,
  robotsRefs := fun _ => [],
  htmlSitemapLinks := fun _ => [],
  htmlHrefs := fun _ => [],
  urljoin := fun b u => b ++ u,
  xmlParse := fun c =>
    if c = idxContent then Except.ok (XmlRoot.mk tagIndex [subUrl1, subUrl2] [])
    else if c = idxBadContent then Except.ok (XmlRoot.mk tagIndex [badUrl, subUrl2] [])
    else if c = contentOne then Except.ok (XmlRoot.mk tagUrlset [] [page1])
    else if c = contentTwo then Except.ok (XmlRoot.mk tagUrlset [] [page2])
    else Except.error errSyntax }

def locUrlX : String := "https://a.test/x"

def locContent : String := "junk <loc>https://a.test/x</loc> tail"

/- Environment whose XML parser always fails and whose href pattern never
   matches: it mirrors lxml and re on content that is neither XML nor to
   any extent link-bearing HTML.  Used for the regex-fallback witness and
   the HTML-short-circuit counterexample. -/
def wEnvP : Env := {
  httpGet := fun _ => Except.error errNoRoute,
  httpGetRaw := fun _ => Except.error errNoRoute,
  netloc := fun _ => hostATest,
  scheme := fun _ => httpsScheme,
  robotsRefs := fun _ => [],
  htmlSitemapLinks := fun _ => [],
  htmlHrefs := fun _ => [],
  urljoin := fun b u => b ++ u,
  xmlParse := fun _ => Except.error errSyntax }

def robUrl : String := "https://a.test/robots.txt"

def robUrl2 : String := "https://b.test/robots.txt"

def robUrl3 : String := "https://c.test/robots.txt"

def mapUrl : String := "https://a.test/map.xml"

def mapContent : String := "MAPDATA"

def robBody : String := "robots body with one reference"

def robBodyBad : String := "robots body with unreachable reference"

def robBodyNone : String := "robots body with no reference"

def twitterMap : String := "https://twitter.com/map.xml"

/- Environment for the robots.txt witness: one robots file referencing a
   fetchable sitemap, one referencing a URL whose fetch fails (the twitter
   special case raises), one with no sitemap line at all. -/
def wEnvR : Env := {
  httpGet := fun u =>
    if u = robUrl then Except.ok robBody
    else if u = robUrl2 then Except.ok robBodyBad
    else if u = robUrl3 then Except.ok robBodyNone
    else if u = mapUrl then Except.ok mapContent
    else Except.error errNoRoute,
  httpGetRaw := fun _ => Except.error errNoRoute,
  netloc := fun u => if u = twitterMap then twitterHost else hostATest,
  scheme := fun _ => httpsScheme,
  robotsRefs := fun b =>
    if b = robBody then [mapUrl]
    else if b = robBodyBad then [twitterMap]
    else [],
  htmlSitemapLinks := fun _ => [],
  htmlHrefs := fun _ => [],
  urljoin := fun b u => b ++ u,
  xmlParse := fun _ => Except.error errSyntax }

def htmlContent : String := "<html><body>x</body></html>"

def hrefAbs : String := "https://a.test/page.html"

def hrefRel : String := "/about/"

def hrefSkip : String := "docs/page.html"

def cxHtml : String := "<html>"

/- Environment for the HTML short-circuit witness: the href pattern finds
   an absolute candidate, a root-relative one and a scheme-less relative
   one; the content exposes no parseable base origin. -/
def wEnvH : Env := {
  httpGet := fun _ => Except.error errNoRoute,
  httpGetRaw := fun _ => Except.error errNoRoute,
  netloc := fun _ => noErr,
  scheme := fun _ => httpsScheme,
  robotsRefs := fun _ => [],
  htmlSitemapLinks := fun _ => [],
  htmlHrefs := fun c => if c = htmlContent then [hrefAbs, hrefRel, hrefSkip] else [],
  urljoin := fun b u => b ++ u,
  xmlParse := fun _ => Except.error errSyntax }

/- ------------------------------------------------------------------ -/
/- Theorems for claims C5, C7, C10                                      -/
/- ------------------------------------------------------------------ -/

/-- C5: load_known_urls never raises: on a missing store file it returns the
empty mapping and changes nothing; on a malformed (non-JSON) store file it
returns the empty mapping, and — when the best-effort copy succeeds — the
corrupt raw content has been copied to the .bak path, the main file being
left in place; when the backup copy fails the file system is untouched and
the empty mapping is still returned. -/
theorem load_missing_or_malformed_recovers (b : Bool) (fs : StoreFS) :
    (fs.main = FileContent.missing → load_known_urls b fs = (JVal.obj [], fs))
    ∧ (∀ raw, fs.main = FileContent.malformed raw →
        (load_known_urls b fs).1 = JVal.obj []
        ∧ (b = true → (load_known_urls b fs).2.bak = FileContent.malformed raw
            ∧ (load_known_urls b fs).2.main = fs.main)
        ∧ (b = false → (load_known_urls b fs).2 = fs)) := by
  constructor
  · intro h
    simp [load_known_urls, h]
  · intro raw h
    cases b <;> simp [load_known_urls, h]

/-- Witness for C5: a concrete malformed store file is backed up to the .bak
path and load returns the empty mapping; a concrete missing store file
yields the empty mapping unchanged. -/
theorem load_missing_or_malformed_recovers_witness :
    ((StoreFS.mk (FileContent.malformed exRaw) FileContent.missing).main
        = FileContent.malformed exRaw
      ∧ (load_known_urls true (StoreFS.mk (FileContent.malformed exRaw) FileContent.missing)).1
          = JVal.obj []
      ∧ (load_known_urls true (StoreFS.mk (FileContent.malformed exRaw) FileContent.missing)).2.bak
          = FileContent.malformed exRaw)
    ∧ ((StoreFS.mk FileContent.missing FileContent.missing).main = FileContent.missing
      ∧ load_known_urls false (StoreFS.mk FileContent.missing FileContent.missing)
          = (JVal.obj [], StoreFS.mk FileContent.missing FileContent.missing)) := by
  constructor
  · refine ⟨rfl, ?_, ?_⟩
    · exact ((load_missing_or_malformed_recovers true
        (StoreFS.mk (FileContent.malformed exRaw) FileContent.missing)).2 exRaw rfl).1
    · exact (((load_missing_or_malformed_recovers true
        (StoreFS.mk (FileContent.malformed exRaw) FileContent.missing)).2 exRaw rfl).2.1 rfl).1
  · exact ⟨rfl, (load_missing_or_malformed_recovers false
      (StoreFS.mk FileContent.missing FileContent.missing)).1 rfl⟩

/-- C7: for every valid on-disk mapping, save(load()) is a no-op on the
store: loading the mapping and saving the loaded value back leaves the file
system exactly as it was, whether or not the physical write succeeds (a
failed write also leaves the previous state untouched). -/
theorem store_roundtrip_noop (b w : Bool) (fs : StoreFS) (v : JVal)
    (hv : fs.main = FileContent.valid v) (hm : isUrlMapping v = true) :
    save_known_urls (load_known_urls b fs).1 w (load_known_urls b fs).2 = fs := by
  have hobj : v.isObj = true := by
    cases v <;> simp_all [isUrlMapping, JVal.isObj]
  cases fs with
  | mk m k =>
    simp only at hv
    subst hv
    cases w <;> simp [load_known_urls, save_known_urls, hobj]

/-- Witness for C7: round-tripping a concrete valid mapping through load and
save leaves the concrete store state unchanged. -/
theorem store_roundtrip_noop_witness :
    (StoreFS.mk (FileContent.valid exMapping) FileContent.missing).main
      = FileContent.valid exMapping
    ∧ isUrlMapping exMapping = true
    ∧ save_known_urls
        (load_known_urls true (StoreFS.mk (FileContent.valid exMapping) FileContent.missing)).1
        true
        (load_known_urls true (StoreFS.mk (FileContent.valid exMapping) FileContent.missing)).2
      = StoreFS.mk (FileContent.valid exMapping) FileContent.missing := by
  refine ⟨rfl, by decide, ?_⟩
  exact store_roundtrip_noop true true
    (StoreFS.mk (FileContent.valid exMapping) FileContent.missing) exMapping rfl (by decide)

/-- C10: for every argument that is not a JSON object (dict), a successful
save_known_urls substitutes the empty mapping and overwrites the store file
with the empty JSON object, whatever mapping was previously on disk. -/
theorem save_nondict_overwrites_with_empty (v : JVal) (fs : StoreFS)
    (hv : v.isObj = false) :
    save_known_urls v true fs
      = { main := FileContent.valid (JVal.obj []), bak := fs.bak } := by
  simp [save_known_urls, hv]

/-- Witness for C10: saving a JSON array (a concrete non-dict value) over a
store that previously held a non-empty valid mapping replaces the main file
with the empty JSON object. -/
theorem save_nondict_overwrites_with_empty_witness :
    (JVal.arr []).isObj = false
    ∧ save_known_urls (JVal.arr []) true
        (StoreFS.mk (FileContent.valid exMapping) FileContent.missing)
      = StoreFS.mk (FileContent.valid (JVal.obj [])) FileContent.missing := by
  refine ⟨rfl, ?_⟩
  exact save_nondict_overwrites_with_empty (JVal.arr [])
    (StoreFS.mk (FileContent.valid exMapping) FileContent.missing) rfl

/- ------------------------------------------------------------------ -/
/- Fold lemmas for the check_sitemaps loop                             -/
/- ------------------------------------------------------------------ -/

theorem checkStep_eq (fp : String → Except String (Finset String))
    (k : KnownMap) (rs : List SitemapCheckResult) (w : String) :
    checkStep fp (k, rs) w = (stepKnown fp k w, rs ++ [stepRes fp k w]) := by
  cases h : fp w with
  | error e => simp [checkStep, stepKnown, stepRes, h]
  | ok current =>
    simp only [checkStep, stepKnown, stepRes, h]
    by_cases hn : current \ kmGet (if kmHasKey k w then k else k ++ [(w, ∅)]) w = ∅ <;>
      simp [hn]

theorem foldl_checkStep_eq (fp : String → Except String (Finset String))
    (us : List String) :
    ∀ (k : KnownMap) (rs : List SitemapCheckResult),
      us.foldl (checkStep fp) (k, rs) = (foldKnown fp k us, rs ++ foldRes fp k us) := by
  induction us with
  | nil => intro k rs; simp [foldKnown, foldRes]
  | cons w us ih =>
    intro k rs
    have h2 : (w :: us).foldl (checkStep fp) (k, ([] : List SitemapCheckResult))
        = us.foldl (checkStep fp) (stepKnown fp k w, [stepRes fp k w]) := by
      rw [List.foldl_cons, checkStep_eq]
      simp
    have hk : foldKnown fp k (w :: us) = foldKnown fp (stepKnown fp k w) us := by
      unfold foldKnown
      rw [h2, ih, ih]
    have hr : foldRes fp k (w :: us)
        = stepRes fp k w :: foldRes fp (stepKnown fp k w) us := by
      unfold foldRes
      rw [h2, ih, ih]
      simp
    rw [List.foldl_cons, checkStep_eq, ih, hk, hr]
    simp

theorem foldKnown_cons (fp : String → Except String (Finset String))
    (k : KnownMap) (w : String) (us : List String) :
    foldKnown fp k (w :: us) = foldKnown fp (stepKnown fp k w) us := by
  unfold foldKnown
  rw [List.foldl_cons, checkStep_eq, foldl_checkStep_eq, foldl_checkStep_eq]

theorem foldRes_cons (fp : String → Except String (Finset String))
    (k : KnownMap) (w : String) (us : List String) :
    foldRes fp k (w :: us) = stepRes fp k w :: foldRes fp (stepKnown fp k w) us := by
  unfold foldRes
  rw [List.foldl_cons, checkStep_eq, foldl_checkStep_eq, foldl_checkStep_eq]
  simp

theorem foldKnown_append (fp : String → Except String (Finset String))
    (k : KnownMap) (xs ys : List String) :
    foldKnown fp k (xs ++ ys) = foldKnown fp (foldKnown fp k xs) ys := by
  induction xs generalizing k with
  | nil => simp [foldKnown]
  | cons w xs ih => simp [foldKnown_cons, ih]

theorem foldRes_append (fp : String → Except String (Finset String))
    (k : KnownMap) (xs ys : List String) :
    foldRes fp k (xs ++ ys) = foldRes fp k xs ++ foldRes fp (foldKnown fp k xs) ys := by
  induction xs generalizing k with
  | nil => simp [foldRes, foldKnown]
  | cons w xs ih => simp [foldRes_cons, foldKnown_cons, ih]

theorem stepRes_url (fp : String → Except String (Finset String))
    (k : KnownMap) (w : String) : (stepRes fp k w).sitemap_url = w := by
  unfold stepRes
  cases fp w <;> rfl

theorem foldRes_map_urls (fp : String → Except String (Finset String))
    (us : List String) :
    ∀ k : KnownMap, (foldRes fp k us).map (fun r => r.sitemap_url) = us := by
  induction us with
  | nil => intro k; rfl
  | cons w us ih =>
    intro k
    rw [foldRes_cons]
    simp [stepRes_url, ih]

theorem foldRes_length (fp : String → Except String (Finset String))
    (k : KnownMap) (us : List String) : (foldRes fp k us).length = us.length := by
  have h := foldRes_map_urls fp us k
  calc (foldRes fp k us).length
      = ((foldRes fp k us).map (fun r => r.sitemap_url)).length := by simp
    _ = us.length := by rw [h]

theorem foldRes_mem_url (fp : String → Except String (Finset String))
    (k : KnownMap) (us : List String) (r : SitemapCheckResult)
    (h : r ∈ foldRes fp k us) : r.sitemap_url ∈ us := by
  have hm := foldRes_map_urls fp us k
  rw [← hm]
  exact List.mem_map_of_mem _ h

theorem check_sitemaps_fst (fp : String → Except String (Finset String))
    (k : KnownMap) (us : List String) :
    (check_sitemaps fp k us).1 = foldRes fp k us := rfl

theorem check_sitemaps_known (fp : String → Except String (Finset String))
    (k : KnownMap) (us : List String) :
    (check_sitemaps fp k us).2.1 = foldKnown fp k us := rfl

/- ------------------------------------------------------------------ -/
/- Mapping lemmas                                                      -/
/- ------------------------------------------------------------------ -/

theorem kmHasKey_append_single (m : KnownMap) (w u : String) (v : Finset String) :
    kmHasKey (m ++ [(w, v)]) u = (kmHasKey m u || decide (w = u)) := by
  induction m with
  | nil => simp [kmHasKey]
  | cons p m ih => by_cases h : p.1 = u <;> simp [kmHasKey, h, ih]

theorem kmGet_append_ne (m : KnownMap) (w u : String) (v : Finset String)
    (h : w ≠ u) : kmGet (m ++ [(w, v)]) u = kmGet m u := by
  induction m with
  | nil => simp [kmGet, h]
  | cons p m ih => by_cases hp : p.1 = u <;> simp [kmGet, hp, ih]

theorem kmGet_append_self (m : KnownMap) (u : String) (v : Finset String)
    (h : kmHasKey m u = false) : kmGet (m ++ [(u, v)]) u = v := by
  induction m with
  | nil => simp [kmGet]
  | cons p m ih =>
    by_cases hp : p.1 = u
    · simp [kmHasKey, hp] at h
    · simp [kmHasKey, hp] at h
      simp [kmGet, hp, ih h]

theorem kmHasKey_map_set (m : KnownMap) (w u : String) (v : Finset String)
    (h : w ≠ u) :
    kmHasKey (m.map (fun p => if p.1 = w then (w, v) else p)) u = kmHasKey m u := by
  induction m with
  | nil => simp [kmHasKey]
  | cons p m ih =>
    by_cases hp : p.1 = w
    · have hpu : p.1 ≠ u := by rw [hp]; exact h
      simp [kmHasKey, hp, hpu, h, ih]
    · have hUw : ¬u = w := fun he => h he.symm
      by_cases hu : p.1 = u <;> simp [kmHasKey, hp, hu, hUw, ih]

theorem kmGet_map_set_ne (m : KnownMap) (w u : String) (v : Finset String)
    (h : w ≠ u) :
    kmGet (m.map (fun p => if p.1 = w then (w, v) else p)) u = kmGet m u := by
  induction m with
  | nil => simp [kmGet]
  | cons p m ih =>
    by_cases hp : p.1 = w
    · have hpu : p.1 ≠ u := by rw [hp]; exact h
      simp [kmGet, hp, hpu, h, ih]
    · have hUw : ¬u = w := fun he => h he.symm
      by_cases hu : p.1 = u <;> simp [kmGet, hp, hu, hUw, ih]

theorem kmHasKey_kmSet_ne (m : KnownMap) (w u : String) (v : Finset String)
    (h : w ≠ u) : kmHasKey (kmSet m w v) u = kmHasKey m u := by
  by_cases hk : kmHasKey m w = true
  · simp [kmSet, hk, kmHasKey_map_set m w u v h]
  · simp [kmSet, hk, kmHasKey_append_single, h]

theorem kmGet_kmSet_ne (m : KnownMap) (w u : String) (v : Finset String)
    (h : w ≠ u) : kmGet (kmSet m w v) u = kmGet m u := by
  by_cases hk : kmHasKey m w = true
  · simp [kmSet, hk, kmGet_map_set_ne m w u v h]
  · simp [kmSet, hk, kmGet_append_ne m w u v h]

theorem kmGet_map_set_self (m : KnownMap) (w : String) (v : Finset String)
    (h : kmHasKey m w = true) :
    kmGet (m.map (fun p => if p.1 = w then (w, v) else p)) w = v := by
  induction m with
  | nil => simp [kmHasKey] at h
  | cons p m ih =>
    by_cases hp : p.1 = w
    · simp [kmGet, hp]
    · simp [kmHasKey, hp] at h
      simp [kmGet, hp, ih h]

theorem kmHasKey_map_set_self (m : KnownMap) (w : String) (v : Finset String)
    (h : kmHasKey m w = true) :
    kmHasKey (m.map (fun p => if p.1 = w then (w, v) else p)) w = true := by
  induction m with
  | nil => simp [kmHasKey] at h
  | cons p m ih =>
    by_cases hp : p.1 = w
    · simp [kmHasKey, hp]
    · simp [kmHasKey, hp] at h
      simp [kmHasKey, hp, ih h]

theorem kmGet_kmSet_self (m : KnownMap) (w : String) (v : Finset String) :
    kmGet (kmSet m w v) w = v := by
  by_cases hk : kmHasKey m w = true
  · simp [kmSet, hk, kmGet_map_set_self m w v hk]
  · simp only [kmSet, hk, if_false]
    exact kmGet_append_self m w v (by simpa using hk)

theorem kmHasKey_kmSet_self (m : KnownMap) (w : String) (v : Finset String) :
    kmHasKey (kmSet m w v) w = true := by
  by_cases hk : kmHasKey m w = true
  · simp [kmSet, hk, kmHasKey_map_set_self m w v hk]
  · simp [kmSet, hk, kmHasKey_append_single]

/- ------------------------------------------------------------------ -/
/- Behaviour of a single loop iteration                                -/
/- ------------------------------------------------------------------ -/

theorem stepKnown_preserves_ne (fp : String → Except String (Finset String))
    (k : KnownMap) (w u : String) (h : w ≠ u) :
    kmHasKey (stepKnown fp k w) u = kmHasKey k u
    ∧ kmGet (stepKnown fp k w) u = kmGet k u := by
  unfold stepKnown
  cases hf : fp w with
  | error e => exact ⟨rfl, rfl⟩
  | ok current =>
    have hks : kmHasKey (if kmHasKey k w then k else k ++ [(w, ∅)]) u = kmHasKey k u := by
      by_cases hw : kmHasKey k w = true <;> simp [hw, kmHasKey_append_single, h]
    have hgs : kmGet (if kmHasKey k w then k else k ++ [(w, ∅)]) u = kmGet k u := by
      by_cases hw : kmHasKey k w = true <;> simp [hw, kmGet_append_ne _ w u _ h]
    by_cases hd : current \ kmGet (if kmHasKey k w then k else k ++ [(w, ∅)]) w = ∅
    · simp only [hd, if_true]
      exact ⟨hks, hgs⟩
    · simp only [hd, if_false]
      exact ⟨(kmHasKey_kmSet_ne _ w u current h).trans hks,
             (kmGet_kmSet_ne _ w u current h).trans hgs⟩

theorem foldKnown_preserves_notmem (fp : String → Except String (Finset String))
    (ws : List String) :
    ∀ (k : KnownMap) (u : String), u ∉ ws →
      kmHasKey (foldKnown fp k ws) u = kmHasKey k u
      ∧ kmGet (foldKnown fp k ws) u = kmGet k u := by
  induction ws with
  | nil => intro k u _; exact ⟨rfl, rfl⟩
  | cons w ws ih =>
    intro k u h
    have hw : w ≠ u := by
      intro he
      exact h (he ▸ List.mem_cons_self w ws)
    have h2 : u ∉ ws := fun hm => h (List.mem_cons_of_mem _ hm)
    rw [foldKnown_cons]
    obtain ⟨ha, hb⟩ := ih (stepKnown fp k w) u h2
    obtain ⟨hc, hd⟩ := stepKnown_preserves_ne fp k w u hw
    exact ⟨ha.trans hc, hb.trans hd⟩

theorem stepRes_err (fp : String → Except String (Finset String))
    (k : KnownMap) (u e : String) (h : fp u = Except.error e) :
    stepRes fp k u = SitemapCheckResult.mk u 0 ∅ e ∧ stepKnown fp k u = k := by
  unfold stepRes stepKnown
  rw [h]
  exact ⟨rfl, rfl⟩

theorem stepRes_fresh (fp : String → Except String (Finset String))
    (k : KnownMap) (u : String) (s : Finset String)
    (hok : fp u = Except.ok s) (habs : kmHasKey k u = false) :
    stepRes fp k u = SitemapCheckResult.mk u s.card s noErr
    ∧ kmGet (stepKnown fp k u) u = s
    ∧ kmHasKey (stepKnown fp k u) u = true := by
  have hk1get : kmGet (if kmHasKey k u then k else k ++ [(u, ∅)]) u = ∅ := by
    simp [habs, kmGet_append_self k u ∅ habs]
  have hk1has : kmHasKey (if kmHasKey k u then k else k ++ [(u, ∅)]) u = true := by
    simp [habs, kmHasKey_append_single]
  refine ⟨?_, ?_, ?_⟩
  · unfold stepRes
    rw [hok]
    simp [hk1get]
  · unfold stepKnown
    rw [hok]
    simp only [hk1get, Finset.sdiff_empty]
    by_cases hs : s = ∅
    · simp [hs, hk1get]
    · simp [hs, kmGet_kmSet_self]
  · unfold stepKnown
    rw [hok]
    simp only [hk1get, Finset.sdiff_empty]
    by_cases hs : s = ∅
    · simp [hs, hk1has]
    · simp [hs, kmHasKey_kmSet_self]

theorem stepRes_same (fp : String → Except String (Finset String))
    (k : KnownMap) (u : String) (s : Finset String)
    (hok : fp u = Except.ok s) (hhas : kmHasKey k u = true)
    (hget : kmGet k u = s) :
    stepRes fp k u = SitemapCheckResult.mk u s.card ∅ noErr
    ∧ stepKnown fp k u = k := by
  constructor
  · unfold stepRes
    rw [hok]
    simp [hhas, hget, Finset.sdiff_self]
  · unfold stepKnown
    rw [hok]
    simp [hhas, hget, Finset.sdiff_self]

theorem take_len_append {α : Type} (a b : List α) :
    (a ++ b).take a.length = a ∧ (a ++ b).drop a.length = b := by
  induction a with
  | nil => simp
  | cons x a ih => simp [ih]

/- ------------------------------------------------------------------ -/
/- Theorems for claims C1, C2, C3                                      -/
/- ------------------------------------------------------------------ -/

/-- C1: for a sitemap identifier absent from the known-URL store, a first
successful check (fetch and parse both succeed, yielding the set s) reports
new_urls equal to the full parsed URL set s, and after the check the store
maps that identifier to exactly s.  The identifier occurs once in the cycle
(list pre ++ u :: post with u in neither side); its result sits at the
position of u and no other result concerns u. -/
theorem first_check_reports_full_set (fp : String → Except String (Finset String))
    (k0 : KnownMap) (pre post : List String) (u : String) (s : Finset String)
    (hok : fp u = Except.ok s) (habs : kmHasKey k0 u = false)
    (hpre : u ∉ pre) (hpost : u ∉ post) :
    ∃ r1 r2 : List SitemapCheckResult,
      (check_sitemaps fp k0 (pre ++ u :: post)).1
          = r1 ++ SitemapCheckResult.mk u s.card s noErr :: r2
      ∧ r1.length = pre.length
      ∧ (∀ r ∈ r1, r.sitemap_url ≠ u) ∧ (∀ r ∈ r2, r.sitemap_url ≠ u)
      ∧ kmGet (check_sitemaps fp k0 (pre ++ u :: post)).2.1 u = s
      ∧ kmHasKey (check_sitemaps fp k0 (pre ++ u :: post)).2.1 u = true := by
  have hkP := foldKnown_preserves_notmem fp pre k0 u hpre
  have habsP : kmHasKey (foldKnown fp k0 pre) u = false := hkP.1.trans habs
  obtain ⟨hres, hget, hhas⟩ := stepRes_fresh fp (foldKnown fp k0 pre) u s hok habsP
  have hPost := foldKnown_preserves_notmem fp post
    (stepKnown fp (foldKnown fp k0 pre) u) u hpost
  refine ⟨foldRes fp k0 pre,
          foldRes fp (stepKnown fp (foldKnown fp k0 pre) u) post, ?_, ?_, ?_, ?_, ?_, ?_⟩
  · rw [check_sitemaps_fst, foldRes_append, foldRes_cons, hres]
  · exact foldRes_length fp k0 pre
  · intro r hr heq
    exact hpre (heq ▸ foldRes_mem_url fp k0 pre r hr)
  · intro r hr heq
    exact hpost (heq ▸ foldRes_mem_url fp _ post r hr)
  · rw [check_sitemaps_known, foldKnown_append, foldKnown_cons]
    exact hPost.2.trans hget
  · rw [check_sitemaps_known, foldKnown_append, foldKnown_cons]
    exact hPost.1.trans hhas

/-- Witness for C1: a concrete never-seen sitemap URL checked together with
one other URL gets a result whose new_urls is the whole two-element parsed
set, and the final mapping stores exactly that set for it. -/
theorem first_check_reports_full_set_witness :
    fpOkW wUrl = Except.ok wSet
    ∧ kmHasKey [] wUrl = false
    ∧ wUrl ∉ [wOther]
    ∧ wUrl ∉ ([] : List String)
    ∧ (∃ r1 r2 : List SitemapCheckResult,
        (check_sitemaps fpOkW [] ([wOther] ++ wUrl :: [])).1
            = r1 ++ SitemapCheckResult.mk wUrl wSet.card wSet noErr :: r2
        ∧ r1.length = [wOther].length
        ∧ (∀ r ∈ r1, r.sitemap_url ≠ wUrl) ∧ (∀ r ∈ r2, r.sitemap_url ≠ wUrl)
        ∧ kmGet (check_sitemaps fpOkW [] ([wOther] ++ wUrl :: [])).2.1 wUrl = wSet
        ∧ kmHasKey (check_sitemaps fpOkW [] ([wOther] ++ wUrl :: [])).2.1 wUrl = true) :=
  ⟨rfl, rfl, by decide, by decide,
   first_check_reports_full_set fpOkW [] [wOther] [] wUrl wSet rfl rfl
     (by decide) (by decide)⟩

/-- C2: for a sitemap whose fetched content parses to exactly the stored
set s, the check reports new_urls empty (with the correct total) and leaves
the stored set for that identifier unchanged at s. -/
theorem unchanged_content_check_is_noop (fp : String → Except String (Finset String))
    (k0 : KnownMap) (pre post : List String) (u : String) (s : Finset String)
    (hok : fp u = Except.ok s) (hhas : kmHasKey k0 u = true)
    (hget : kmGet k0 u = s) (hpre : u ∉ pre) (hpost : u ∉ post) :
    ∃ r1 r2 : List SitemapCheckResult,
      (check_sitemaps fp k0 (pre ++ u :: post)).1
          = r1 ++ SitemapCheckResult.mk u s.card ∅ noErr :: r2
      ∧ r1.length = pre.length
      ∧ (∀ r ∈ r1, r.sitemap_url ≠ u) ∧ (∀ r ∈ r2, r.sitemap_url ≠ u)
      ∧ kmGet (check_sitemaps fp k0 (pre ++ u :: post)).2.1 u = s := by
  have hkP := foldKnown_preserves_notmem fp pre k0 u hpre
  have hhasP : kmHasKey (foldKnown fp k0 pre) u = true := hkP.1.trans hhas
  have hgetP : kmGet (foldKnown fp k0 pre) u = s := hkP.2.trans hget
  obtain ⟨hres, hkeep⟩ := stepRes_same fp (foldKnown fp k0 pre) u s hok hhasP hgetP
  have hPost := foldKnown_preserves_notmem fp post
    (stepKnown fp (foldKnown fp k0 pre) u) u hpost
  refine ⟨foldRes fp k0 pre,
          foldRes fp (stepKnown fp (foldKnown fp k0 pre) u) post, ?_, ?_, ?_, ?_, ?_⟩
  · rw [check_sitemaps_fst, foldRes_append, foldRes_cons, hres]
  · exact foldRes_length fp k0 pre
  · intro r hr heq
    exact hpre (heq ▸ foldRes_mem_url fp k0 pre r hr)
  · intro r hr heq
    exact hpost (heq ▸ foldRes_mem_url fp _ post r hr)
  · rw [check_sitemaps_known, foldKnown_append, foldKnown_cons]
    rw [hPost.2, hkeep]
    exact hgetP

/-- Witness for C2: re-checking a concrete sitemap whose stored set equals
the freshly parsed set yields an empty new_urls result and an unchanged
stored set. -/
theorem unchanged_content_check_is_noop_witness :
    fpOkW wUrl = Except.ok wSet
    ∧ kmHasKey [(wUrl, wSet)] wUrl = true
    ∧ kmGet [(wUrl, wSet)] wUrl = wSet
    ∧ (∃ r1 r2 : List SitemapCheckResult,
        (check_sitemaps fpOkW [(wUrl, wSet)] ([] ++ wUrl :: [])).1
            = r1 ++ SitemapCheckResult.mk wUrl wSet.card ∅ noErr :: r2
        ∧ r1.length = ([] : List String).length
        ∧ (∀ r ∈ r1, r.sitemap_url ≠ wUrl) ∧ (∀ r ∈ r2, r.sitemap_url ≠ wUrl)
        ∧ kmGet (check_sitemaps fpOkW [(wUrl, wSet)] ([] ++ wUrl :: [])).2.1 wUrl = wSet) :=
  ⟨rfl, rfl, rfl,
   unchanged_content_check_is_noop fpOkW [(wUrl, wSet)] [] [] wUrl wSet rfl rfl rfl
     (by decide) (by decide)⟩

/-- C3 (amended): check_sitemaps produces exactly one result per input URL
in input order; a URL whose fetch-and-parse fails with message e (non-empty)
gets the result (url, 0, no new urls, e) at its own position while every
other URL's result and the final mapping are exactly as in the cycle without
the failing URL; the results are independent of the persistence step and of
the prior disk state; the final mapping is persisted once when it is
non-empty (an empty final mapping is not persisted — this is the amendment),
and a failed persistence leaves the disk unchanged without altering the
results. -/
theorem results_per_url_isolation_persistence
    (fp : String → Except String (Finset String)) (k0 : KnownMap)
    (urls : List String) :
    (check_sitemaps fp k0 urls).1.map (fun r => r.sitemap_url) = urls
    ∧ (∀ pre u post e, urls = pre ++ u :: post → fp u = Except.error e →
        e ≠ noErr →
        (check_sitemaps fp k0 urls).1
            = ((check_sitemaps fp k0 (pre ++ post)).1.take pre.length)
              ++ SitemapCheckResult.mk u 0 ∅ e
                :: ((check_sitemaps fp k0 (pre ++ post)).1.drop pre.length)
        ∧ (check_sitemaps fp k0 urls).2.1 = (check_sitemaps fp k0 (pre ++ post)).2.1)
    ∧ (∀ saveOk disk0, (runCheckCycle fp k0 urls saveOk disk0).1
        = (check_sitemaps fp k0 urls).1)
    ∧ (∀ disk0, (check_sitemaps fp k0 urls).2.1 ≠ [] →
        (runCheckCycle fp k0 urls true disk0).2
          = some (check_sitemaps fp k0 urls).2.1)
    ∧ (∀ disk0, (runCheckCycle fp k0 urls false disk0).2 = disk0) := by
  refine ⟨?_, ?_, ?_, ?_, ?_⟩
  · rw [check_sitemaps_fst]
    exact foldRes_map_urls fp urls k0
  · intro pre u post e hu hfe _
    subst hu
    obtain ⟨hres, hkeep⟩ := stepRes_err fp (foldKnown fp k0 pre) u e hfe
    have hlen : (foldRes fp k0 pre).length = pre.length := foldRes_length fp k0 pre
    have htd := take_len_append (foldRes fp k0 pre)
      (foldRes fp (foldKnown fp k0 pre) post)
    constructor
    · rw [check_sitemaps_fst, check_sitemaps_fst, foldRes_append, foldRes_cons,
          hres, hkeep, foldRes_append, ← hlen, htd.1, htd.2]
    · rw [check_sitemaps_known, check_sitemaps_known, foldKnown_append,
          foldKnown_cons, hkeep, foldKnown_append]
  · intro saveOk disk0
    rfl
  · intro disk0 hne
    have hE : (check_sitemaps fp k0 urls).2.1.isEmpty = false := by
      cases h : (check_sitemaps fp k0 urls).2.1 with
      | nil => exact absurd h hne
      | cons a l => rfl
    simp [runCheckCycle, hE]
  · intro disk0
    by_cases hE : (check_sitemaps fp k0 urls).2.1.isEmpty <;>
      simp [runCheckCycle, hE]

/-- Witness for C3: a concrete cycle of two URLs where the second one fails
with a non-empty message; the theorem's conclusions instantiated there. -/
theorem results_per_url_isolation_persistence_witness :
    ([wOther] ++ wUrl :: [] = [wOther, wUrl]
      ∧ fpIsoW wUrl = Except.error wMsg ∧ wMsg ≠ noErr)
    ∧ (check_sitemaps fpIsoW [] [wOther, wUrl]).1.map (fun r => r.sitemap_url)
        = [wOther, wUrl]
    ∧ ((check_sitemaps fpIsoW [] [wOther, wUrl]).1
        = ((check_sitemaps fpIsoW [] ([wOther] ++ [])).1.take [wOther].length)
          ++ SitemapCheckResult.mk wUrl 0 ∅ wMsg
            :: ((check_sitemaps fpIsoW [] ([wOther] ++ [])).1.drop [wOther].length)
      ∧ (check_sitemaps fpIsoW [] [wOther, wUrl]).2.1
          = (check_sitemaps fpIsoW [] ([wOther] ++ [])).2.1)
    ∧ (runCheckCycle fpIsoW [] [wOther, wUrl] true none).1
        = (check_sitemaps fpIsoW [] [wOther, wUrl]).1
    ∧ (runCheckCycle fpIsoW [] [wOther, wUrl] true none).2
        = some (check_sitemaps fpIsoW [] [wOther, wUrl]).2.1
    ∧ (runCheckCycle fpIsoW [] [wOther, wUrl] false (some [])).2 = some [] :=
  ⟨⟨rfl, rfl, by decide⟩,
   (results_per_url_isolation_persistence fpIsoW [] [wOther, wUrl]).1,
   (results_per_url_isolation_persistence fpIsoW [] [wOther, wUrl]).2.1
     [wOther] wUrl [] wMsg rfl rfl (by decide),
   (results_per_url_isolation_persistence fpIsoW [] [wOther, wUrl]).2.2.1 true none,
   (results_per_url_isolation_persistence fpIsoW [] [wOther, wUrl]).2.2.2.1 none
     (by decide),
   (results_per_url_isolation_persistence fpIsoW [] [wOther, wUrl]).2.2.2.2
     (some [])⟩

/-- Counterexample for C3 as stated: the claim says the (possibly partially
updated) mapping is persisted once via the store after processing all URLs.
In a cycle whose only URL fails and whose loaded mapping is empty, the final
mapping is empty and the source's `if known_urls:` guard skips the save
call entirely: the invoked-save flag is false and the disk keeps its prior
state (here: no file at all) even though the physical write would have
succeeded.  Nothing is persisted, contradicting "persisted once". -/
theorem check_sitemaps_no_save_on_empty_counterexample :
    (check_sitemaps cxFp [] [cxUrl]).2.2 = false
    ∧ (runCheckCycle cxFp [] [cxUrl] true none).2 = none := ⟨rfl, rfl⟩

/- ------------------------------------------------------------------ -/
/- Helpers for the parse_sitemap theorems                              -/
/- ------------------------------------------------------------------ -/

theorem parse_htmlUrls_nil (env : Env) (content : String)
    (h : htmlGate content = false ∨ env.htmlHrefs content = []) :
    (if htmlGate content = true then env.htmlHrefs content else []) = [] := by
  rcases h with h | h
  · simp [h]
  · by_cases hg : htmlGate content = true <;> simp [hg, h]

theorem mem_foldl_insert (xs : List String) :
    ∀ (acc : Finset String) (x : String),
      x ∈ xs.foldl (fun acc u => insert u acc) acc ↔ x ∈ acc ∨ x ∈ xs := by
  induction xs with
  | nil => intro acc x; simp
  | cons y xs ih =>
    intro acc x
    rw [List.foldl_cons, ih]
    simp only [Finset.mem_insert, List.mem_cons]
    tauto

theorem mem_resolveHtml_fold (env : Env) (content : String) (hs : List String) :
    ∀ (acc : Finset String) (x : String),
      (x ∈ hs.foldl (fun acc u =>
          if strStarts u slashTok = true then insert (env.urljoin (baseOf env content) u) acc
          else if strStarts u httpTok = true ∨ strStarts u httpsTok = true then insert u acc
          else acc) acc)
      ↔ x ∈ acc ∨ ∃ v ∈ hs,
          (strStarts v slashTok = true ∧ x = env.urljoin (baseOf env content) v)
          ∨ (strStarts v slashTok = false
             ∧ (strStarts v httpTok = true ∨ strStarts v httpsTok = true) ∧ x = v) := by
  induction hs with
  | nil => intro acc x; simp
  | cons v hs ih =>
    intro acc x
    simp only [List.foldl_cons]
    rw [ih]
    by_cases h1 : strStarts v slashTok = true
    · rw [if_pos h1]
      simp only [Finset.mem_insert, List.mem_cons]
      constructor
      · rintro (⟨hx | hx⟩ | ⟨w, hw, hq⟩)
        · exact Or.inr ⟨v, Or.inl rfl, Or.inl ⟨h1, hx⟩⟩
        · exact Or.inl hx
        · exact Or.inr ⟨w, Or.inr hw, hq⟩
      · rintro (hx | ⟨w, (rfl | hw), hq⟩)
        · exact Or.inl (Or.inr hx)
        · rcases hq with ⟨_, hx⟩ | ⟨hf, _, _⟩
          · exact Or.inl (Or.inl hx)
          · exact absurd h1 (by simp [hf])
        · exact Or.inr ⟨w, hw, hq⟩
    · have h1f : strStarts v slashTok = false := by
        cases hv : strStarts v slashTok
        · rfl
        · exact absurd hv h1
      rw [if_neg h1]
      by_cases h2 : strStarts v httpTok = true ∨ strStarts v httpsTok = true
      · rw [if_pos h2]
        simp only [Finset.mem_insert, List.mem_cons]
        constructor
        · rintro (⟨hx | hx⟩ | ⟨w, hw, hq⟩)
          · exact Or.inr ⟨v, Or.inl rfl, Or.inr ⟨h1f, h2, hx⟩⟩
          · exact Or.inl hx
          · exact Or.inr ⟨w, Or.inr hw, hq⟩
        · rintro (hx | ⟨w, (rfl | hw), hq⟩)
          · exact Or.inl (Or.inr hx)
          · rcases hq with ⟨ht, _⟩ | ⟨_, _, hx⟩
            · exact absurd ht h1
            · exact Or.inl (Or.inl hx)
          · exact Or.inr ⟨w, hw, hq⟩
      · rw [if_neg h2]
        simp only [List.mem_cons]
        constructor
        · rintro (hx | ⟨w, hw, hq⟩)
          · exact Or.inl hx
          · exact Or.inr ⟨w, Or.inr hw, hq⟩
        · rintro (hx | ⟨w, (rfl | hw), hq⟩)
          · exact Or.inl hx
          · rcases hq with ⟨ht, _⟩ | ⟨_, ht, _⟩
            · exact absurd ht h1
            · exact absurd ht h2
          · exact Or.inr ⟨w, hw, hq⟩

/- ------------------------------------------------------------------ -/
/- Theorems for claims C4, C6, C8, C9                                  -/
/- ------------------------------------------------------------------ -/

/-- C4: parsing a sitemap index whose entries are two sub-sitemaps unions
their URL sets (stated with the disjointness the claim assumes); when the
first sub-sitemap's fetch fails, or its parse fails, the second one's URLs
are still all in the result (one failing sub-sitemap never prevents others
from contributing). -/
theorem parse_index_union_and_isolation (env : Env) (fuel : Nat)
    (content : String) (root : XmlRoot) (s1 s2 c2 : String) (u2 : Finset String)
    (hgate : htmlGate content = false ∨ env.htmlHrefs content = [])
    (hxml : env.xmlParse content = Except.ok root)
    (htag : strEnds root.tag sitemapindexSuffix = true)
    (hlocs : root.sitemapLocs = [s1, s2])
    (hf2 : fetch_sitemap env fuel s2 false = Except.ok c2)
    (hp2 : parse_sitemap env fuel c2 = Except.ok u2) :
    (∀ c1 u1, fetch_sitemap env fuel s1 false = Except.ok c1 →
        parse_sitemap env fuel c1 = Except.ok u1 → u1 ∩ u2 = ∅ →
        parse_sitemap env (fuel + 1) content = Except.ok (u1 ∪ u2))
    ∧ (∀ e1, fetch_sitemap env fuel s1 false = Except.error e1 →
        parse_sitemap env (fuel + 1) content = Except.ok u2)
    ∧ (∀ c1 e1, fetch_sitemap env fuel s1 false = Except.ok c1 →
        parse_sitemap env fuel c1 = Except.error e1 →
        parse_sitemap env (fuel + 1) content = Except.ok u2) := by
  have hu := parse_htmlUrls_nil env content hgate
  refine ⟨?_, ?_, ?_⟩
  · intro c1 u1 hf1 hp1 _
    simp [parse_sitemap, hu, hxml, htag, hlocs, hf1, hp1, hf2, hp2]
  · intro e1 hf1
    simp [parse_sitemap, hu, hxml, htag, hlocs, hf1, hf2, hp2]
  · intro c1 e1 hf1 hp1
    simp [parse_sitemap, hu, hxml, htag, hlocs, hf1, hp1, hf2, hp2]

/-- Witness for C4: a concrete index over two one-page sub-sitemaps parses
to the two-element union; the variant index whose first entry is
unreachable still yields the second sub-sitemap's page. -/
theorem parse_index_union_and_isolation_witness :
    (htmlGate idxContent = false
      ∧ wEnvA.xmlParse idxContent = Except.ok (XmlRoot.mk tagIndex [subUrl1, subUrl2] [])
      ∧ insert page1 (∅ : Finset String) ∩ insert page2 (∅ : Finset String) = ∅
      ∧ parse_sitemap wEnvA 2 idxContent
          = Except.ok (insert page1 (∅ : Finset String) ∪ insert page2 (∅ : Finset String)))
    ∧ (fetch_sitemap wEnvA 1 badUrl false = Except.error errNoRoute
      ∧ parse_sitemap wEnvA 2 idxBadContent = Except.ok (insert page2 (∅ : Finset String))) := by
  constructor
  · refine ⟨rfl, rfl, by decide, ?_⟩
    exact (parse_index_union_and_isolation wEnvA 1 idxContent
        (XmlRoot.mk tagIndex [subUrl1, subUrl2] []) subUrl1 subUrl2 contentTwo
        (insert page2 ∅) (Or.inl rfl) rfl rfl rfl rfl rfl).1
      contentOne (insert page1 ∅) rfl rfl (by decide)
  · refine ⟨rfl, ?_⟩
    exact (parse_index_union_and_isolation wEnvA 1 idxBadContent
        (XmlRoot.mk tagIndex [badUrl, subUrl2] []) badUrl subUrl2 contentTwo
        (insert page2 ∅) (Or.inl rfl) rfl rfl rfl rfl rfl).2.1
      errNoRoute rfl

/-- C6: whenever XML parsing of the content throws (and the HTML
short-circuit did not fire), parse_sitemap applies the loc-extraction regex
to the raw content; if that yields at least one URL the result is exactly
that set of URLs, and if it yields none the original XML parse error is
re-raised. -/
theorem parse_regex_fallback (env : Env) (fuel : Nat) (content e : String)
    (hgate : htmlGate content = false ∨ env.htmlHrefs content = [])
    (hxml : env.xmlParse content = Except.error e) :
    (locFindall content = [] → parse_sitemap env (fuel + 1) content = Except.error e)
    ∧ (∀ l ls, locFindall content = l :: ls →
        ∃ s : Finset String, parse_sitemap env (fuel + 1) content = Except.ok s
          ∧ ∀ x, x ∈ s ↔ x ∈ l :: ls) := by
  have hu := parse_htmlUrls_nil env content hgate
  constructor
  · intro hfl
    simp [parse_sitemap, hu, hxml, hfl]
  · intro l ls hfl
    refine ⟨(l :: ls).foldl (fun acc u => insert u acc) ∅, ?_, ?_⟩
    · simp [parse_sitemap, hu, hxml, hfl]
    · intro x
      rw [mem_foldl_insert]
      simp

/-- Witness for C6: concrete malformed content embedding one loc element;
the fallback returns exactly the singleton of that URL, and the raw
evaluation of parse_sitemap confirms it. -/
theorem parse_regex_fallback_witness :
    (wEnvP.htmlHrefs locContent = []
      ∧ wEnvP.xmlParse locContent = Except.error errSyntax
      ∧ locFindall locContent = [locUrlX])
    ∧ (∃ s : Finset String, parse_sitemap wEnvP 1 locContent = Except.ok s
        ∧ ∀ x, x ∈ s ↔ x ∈ [locUrlX])
    ∧ parse_sitemap wEnvP 1 locContent = Except.ok (insert locUrlX ∅) := by
  refine ⟨⟨rfl, rfl, rfl⟩, ?_, rfl⟩
  exact (parse_regex_fallback wEnvP 0 locContent errSyntax (Or.inr rfl) rfl).2
    locUrlX [] rfl

/-- C8: when the effectively requested URL contains robots.txt (no domain
special case applying) and the response succeeds, fetch_sitemap scans the
body for sitemap references; with none found it fails with the
no-sitemaps-in-robots error; with a first reference found it returns the
body unchanged if this call already came from a robots redirect (so at most
one robots-driven redirect ever happens), otherwise it recursively fetches
the first reference with the redirect flag set, returning that result on
success and falling back to the raw robots.txt body on failure. -/
theorem fetch_robots_redirect (env : Env) (fuel : Nat) (u body : String)
    (flag : Bool)
    (hsc : specialCase env u = Except.ok (false, u))
    (hrob : strContains (lowerStr u) robotsTok = true)
    (hget : env.httpGet u = Except.ok body) :
    (env.robotsRefs body = [] →
      fetch_sitemap env (fuel + 1) u flag = Except.error noSitemapsMsg)
    ∧ (∀ ref refs, env.robotsRefs body = ref :: refs →
        (flag = true → fetch_sitemap env (fuel + 1) u flag = Except.ok body)
        ∧ (flag = false →
            (∀ c, fetch_sitemap env fuel ref true = Except.ok c →
              fetch_sitemap env (fuel + 1) u flag = Except.ok c)
            ∧ (∀ e, fetch_sitemap env fuel ref true = Except.error e →
              fetch_sitemap env (fuel + 1) u flag = Except.ok body))) := by
  have hnorm : normalizeUrl false u = u := by
    simp [normalizeUrl, hrob]
  constructor
  · intro hrefs
    simp [fetch_sitemap, hsc, hnorm, hget, hrob, hrefs]
  · intro ref refs hrefs
    constructor
    · intro hflag
      subst hflag
      simp [fetch_sitemap, hsc, hnorm, hget, hrob, hrefs]
    · intro hflag
      subst hflag
      constructor
      · intro c hc
        simp [fetch_sitemap, hsc, hnorm, hget, hrob, hrefs, hc]
      · intro e he
        simp [fetch_sitemap, hsc, hnorm, hget, hrob, hrefs, he]

/-- Witness for C8: a concrete robots.txt with a reference to a fetchable
sitemap is followed once (and not at all when the redirect flag is already
set); one whose reference fails to fetch falls back to the raw body; one
with no sitemap line fails with the no-sitemaps error. -/
theorem fetch_robots_redirect_witness :
    (specialCase wEnvR robUrl = Except.ok (false, robUrl)
      ∧ strContains (lowerStr robUrl) robotsTok = true
      ∧ wEnvR.httpGet robUrl = Except.ok robBody
      ∧ fetch_sitemap wEnvR 2 robUrl false = Except.ok mapContent
      ∧ fetch_sitemap wEnvR 2 robUrl true = Except.ok robBody)
    ∧ (fetch_sitemap wEnvR 1 twitterMap true = Except.error noPublicMsg
      ∧ fetch_sitemap wEnvR 2 robUrl2 false = Except.ok robBodyBad)
    ∧ fetch_sitemap wEnvR 2 robUrl3 false = Except.error noSitemapsMsg := by
  refine ⟨⟨rfl, rfl, rfl, ?_, ?_⟩, ⟨rfl, ?_⟩, ?_⟩
  · exact (((fetch_robots_redirect wEnvR 1 robUrl robBody false rfl rfl rfl).2
      mapUrl [] rfl).2 rfl).1 mapContent rfl
  · exact ((fetch_robots_redirect wEnvR 1 robUrl robBody true rfl rfl rfl).2
      mapUrl [] rfl).1 rfl
  · exact (((fetch_robots_redirect wEnvR 1 robUrl2 robBodyBad false rfl rfl rfl).2
      twitterMap [] rfl).2 rfl).2 noPublicMsg rfl
  · exact (fetch_robots_redirect wEnvR 1 robUrl3 robBodyNone false rfl rfl rfl).1 rfl

/-- C9 (amended): for content that looks like HTML and lacks the XML
markers, when the href pattern finds at least one candidate parse_sitemap
returns, without attempting XML parsing (the result is the same for every
XML-parsing oracle), the set obtained by keeping absolute http(s)
candidates, resolving root-relative ones against the best-guess base
origin, and dropping all other candidates; when the pattern finds no
candidate the function does NOT return the (empty) extracted set but falls
through to XML parsing — that is the amendment, forced by the
counterexample below. -/
theorem parse_html_short_circuit (env : Env) (fuel : Nat) (content : String)
    (hs : List String)
    (hgate : htmlGate content = true)
    (_hidx : strContains content sitemapindexTok = false)
    (hh : env.htmlHrefs content = hs) (hne : hs ≠ []) :
    parse_sitemap env (fuel + 1) content = Except.ok (resolveHtml env content hs)
    ∧ (∀ x, x ∈ resolveHtml env content hs ↔ ∃ v ∈ hs,
        (strStarts v slashTok = true ∧ x = env.urljoin (baseOf env content) v)
        ∨ (strStarts v slashTok = false
           ∧ (strStarts v httpTok = true ∨ strStarts v httpsTok = true) ∧ x = v))
    ∧ (∀ g, parse_sitemap
        (Env.mk env.httpGet env.httpGetRaw env.netloc env.scheme env.robotsRefs
          env.htmlSitemapLinks env.htmlHrefs env.urljoin g) (fuel + 1) content
        = Except.ok (resolveHtml env content hs)) := by
  have hE : hs.isEmpty = false := by
    cases hs with
    | nil => exact absurd rfl hne
    | cons a t => rfl
  refine ⟨?_, ?_, ?_⟩
  · simp [parse_sitemap, hgate, hh, hE]
  · intro x
    have h := mem_resolveHtml_fold env content hs ∅ x
    simpa [resolveHtml] using h
  · intro g
    simp [parse_sitemap, hgate, hh, hE, resolveHtml, baseOf]

/-- Witness for C9: concrete HTML content with three href candidates; the
absolute one is kept, the root-relative one is resolved against the
fallback base origin, the scheme-less relative one is dropped, and no XML
parsing happens (the environment's XML oracle always fails, yet the parse
succeeds). -/
theorem parse_html_short_circuit_witness :
    (htmlGate htmlContent = true
      ∧ strContains htmlContent sitemapindexTok = false
      ∧ wEnvH.htmlHrefs htmlContent = [hrefAbs, hrefRel, hrefSkip])
    ∧ parse_sitemap wEnvH 1 htmlContent
        = Except.ok (resolveHtml wEnvH htmlContent [hrefAbs, hrefRel, hrefSkip])
    ∧ (∀ x, x ∈ resolveHtml wEnvH htmlContent [hrefAbs, hrefRel, hrefSkip]
        ↔ ∃ v ∈ [hrefAbs, hrefRel, hrefSkip],
          (strStarts v slashTok = true ∧ x = wEnvH.urljoin (baseOf wEnvH htmlContent) v)
          ∨ (strStarts v slashTok = false
             ∧ (strStarts v httpTok = true ∨ strStarts v httpsTok = true) ∧ x = v))
    ∧ resolveHtml wEnvH htmlContent [hrefAbs, hrefRel, hrefSkip]
        = insert (fallbackBase ++ hrefRel) (insert hrefAbs ∅) := by
  have h := parse_html_short_circuit wEnvH 0 htmlContent [hrefAbs, hrefRel, hrefSkip]
    rfl rfl rfl (by decide)
  exact ⟨⟨rfl, rfl, rfl⟩, h.1, h.2.1, by decide⟩

/-- Counterexample for C9 as stated: the content consisting of the single
opening tag of an html element looks like HTML and lacks all three XML
markers, so the claim says parse extracts href candidates (here: none) and
returns that set directly without attempting XML parsing; but the source
only returns early when the href pattern finds at least one candidate, so
this content reaches the XML parser (lxml raises on the unclosed tag, as
the environment models), the loc-regex fallback finds nothing, and
parse_sitemap raises the XML error instead of returning the empty set.  The
claim is also loose in requiring absence of the sitemapindex marker, which
the source's guard never tests. -/
theorem parse_html_no_candidate_counterexample :
    htmlGate cxHtml = true
    ∧ strContains cxHtml xmlDeclTok = false
    ∧ strContains cxHtml urlsetTok = false
    ∧ strContains cxHtml sitemapindexTok = false
    ∧ wEnvP.htmlHrefs cxHtml = []
    ∧ locFindall cxHtml = []
    ∧ parse_sitemap wEnvP 1 cxHtml = Except.error errSyntax :=
  ⟨rfl, rfl, rfl, rfl, rfl, rfl, rfl⟩
